import Mathlib

/-!
Verification of the flaschenetikett route-discovery analyzer.

This development is a shallow embedding of `flaschenetikett.py` (the primary
module of the repository; `flaschenetikett/routeparser.py` is a legacy copy of
the same logic and is noted where it diverges).  Python values become the
`Val` inductive, the relevant `compiler.ast` node shapes become `Expr` /
`Child` / `ModNode`, raised exceptions become `Except Err`, and each method of
`_RouteFindingASTVisitor` and `Route` becomes a Lean function.
-/

namespace Flaschenetikett

/-- Python runtime values that can appear while evaluating decorator
arguments: constants (None, bool, int, float, complex, str) and the three
container kinds the evaluator can build.  Numeric floats and the two
components of a complex number are modelled as rationals (the programs under
analysis only ever use literals, and no claim depends on float rounding). -/
inductive Val where
  | noneV
  | bool (b : Bool)
  | int (i : Int)
  | float (q : Rat)
  | complex (re im : Rat)
  | str (s : String)
  | list (xs : List Val)
  | tuple (xs : List Val)
  | dict (xs : List (Val × Val))

/-- The exceptions the analyzer can raise: the three classes declared in
`flaschenetikett.py` (`NonGlobalError`, `OperationException`, `AssemblyError`),
the bare `Exception` raised by `flatten_name`, and the Python builtins that
the code can trigger (`TypeError`, `IndexError`, `AttributeError`,
`ValueError`). -/
inductive Err where
  | nonGlobal (n : String)
  | operation
  | assembly (kind : String)
  | cannotFlatten (kind : String)
  | typeErr
  | indexErr
  | attributeErr
  | valueErr
deriving DecidableEq

/-- Expression nodes of `compiler.ast` that can appear as a decorator
argument: `Const`, `Tuple`, `List`, `Dict`, `Add`, `Sub`, `Name`, and two
representative node kinds (`Getattr`, `CallFunc`) that fall into the
evaluator's catch-all branch. -/
inductive Expr where
  | const (v : Val)
  | tup (es : List Expr)
  | lst (es : List Expr)
  | dict (items : List (Expr × Expr))
  | add (l r : Expr)
  | sub (l r : Expr)
  | name (s : String)
  | getattr (e : Expr) (attr : String)
  | call (callee : Expr) (args : List Expr)

/-- Python `isinstance(v, complex)`: true exactly for complex instances
(ints, floats and bools are not `complex` instances in Python 2). -/
def Val.isComplexV : Val → Bool
  | .complex _ _ => true
  | _ => false

/-- Coercion of a Python value into a complex number, as Python's arithmetic
does for `complex OP other`: bools and ints and floats embed, anything else
is a `TypeError`. -/
def Val.toComplexNum : Val → Option (Rat × Rat)
  | .bool b => some (if b then 1 else 0, 0)
  | .int i => some ((i : Rat), 0)
  | .float q => some (q, 0)
  | .complex re im => some (re, im)
  | _ => Option.none

/-- Python `operator.add` / `operator.sub` restricted to the situations the
evaluator lets through (at least one complex operand): numeric operands are
combined as complex numbers, a non-numeric operand raises `TypeError`. -/
def pyArith (isAdd : Bool) (l r : Val) : Except Err Val :=
  match l.toComplexNum, r.toComplexNum with
  | some (a, b), some (c, d) =>
      .ok (if isAdd then .complex (a + c) (b + d) else .complex (a - c) (b - d))
  | _, _ => .error .typeErr

/-- Python `d[k] = v` on a string-keyed dict modelled as an association list:
replace the first binding of `k` in place, or append a new binding. -/
def assocUpdate {α : Type} (k : String) (v : α) : List (String × α) → List (String × α)
  | [] => [(k, v)]
  | (k', v') :: rest => if k' = k then (k, v) :: rest else (k', v') :: assocUpdate k v rest

/-- Python `d.get(k)` on a string-keyed dict modelled as an association
list. -/
def assocFind {α : Type} (k : String) : List (String × α) → Option α
  | [] => Option.none
  | (k', v) :: rest => if k' = k then some v else assocFind k rest

/-- Python `del d[k]` (for a key known to be present; a no-op when absent). -/
def assocErase {α : Type} (k : String) : List (String × α) → List (String × α)
  | [] => []
  | (k', v') :: rest => if k' = k then rest else (k', v') :: assocErase k rest

mutual

/-- Structural equality on values, used to model Python `==` where the
analyzer compares flattened decorators (`list.remove`).  Python's `==`
additionally identifies numerically equal values of different numeric types;
any equality that refines name-equality of flattened decorators removes the
same element, so this refinement is observationally equivalent there. -/
def Val.beq : Val → Val → Bool
  | .noneV, .noneV => true
  | .bool a, .bool b => a == b
  | .int a, .int b => a == b
  | .float a, .float b => a == b
  | .complex a b, .complex c d => a == c && b == d
  | .str a, .str b => a == b
  | .list a, .list b => Val.beqList a b
  | .tuple a, .tuple b => Val.beqList a b
  | .dict a, .dict b => Val.beqPairs a b
  | _, _ => false

def Val.beqList : List Val → List Val → Bool
  | [], [] => true
  | a :: as, b :: bs => Val.beq a b && Val.beqList as bs
  | _, _ => false

def Val.beqPairs : List (Val × Val) → List (Val × Val) → Bool
  | [], [] => true
  | (k, v) :: as, (k', v') :: bs => Val.beq k k' && Val.beq v v' && Val.beqPairs as bs
  | _, _ => false

end

/-- Insertion of one key-value pair into a value-keyed dict (first equal key
is replaced in place, otherwise the pair is appended). -/
def valUpdate (k v : Val) : List (Val × Val) → List (Val × Val)
  | [] => [(k, v)]
  | (k', v') :: rest => if Val.beq k' k then (k, v) :: rest else (k', v') :: valUpdate k v rest

/-- Python `dict(pairs)`: insert the pairs left to right, later duplicate
keys overwriting earlier ones. -/
def pyDict (pairs : List (Val × Val)) : List (Val × Val) :=
  pairs.foldl (fun m kv => valUpdate kv.1 kv.2 m) []

mutual

/-- The `_RouteFindingASTVisitor.eval` method: recursively evaluate a parsed
AST node against the module globals `g`.  `Const` returns its value;
`Tuple` and `List` map `eval` over the children; `Dict` unzips its items
(`zip(*node.items)` raises `ValueError` on an empty dict literal), evaluates
all keys, then all values, and zips them back into a dict; `Add` and `Sub`
evaluate both operands and apply the operation only when at least one operand
is a complex instance, raising `OperationException` otherwise; `Name` first
checks the builtin constants True/False/None, then the module globals,
raising `NonGlobalError` when absent; every other node kind raises
`AssemblyError`. -/
def eval (g : List (String × Val)) : Expr → Except Err Val
  | .const v => .ok v
  | .tup es => do
      let vs ← evalChildren g es
      .ok (.tuple vs)
  | .lst es => do
      let vs ← evalChildren g es
      .ok (.list vs)
  | .dict items =>
      match items with
      | [] => .error .valueErr
      | _ :: _ => do
          let ks ← evalKeys g items
          let vs ← evalVals g items
          .ok (.dict (pyDict (ks.zip vs)))
  | .add l r => do
      let lv ← eval g l
      let rv ← eval g r
      if lv.isComplexV || rv.isComplexV then pyArith true lv rv
      else .error .operation
  | .sub l r => do
      let lv ← eval g l
      let rv ← eval g r
      if lv.isComplexV || rv.isComplexV then pyArith false lv rv
      else .error .operation
  | .name s =>
      if s = "True" then .ok (.bool true)
      else if s = "False" then .ok (.bool false)
      else if s = "None" then .ok .noneV
      else match assocFind s g with
        | some v => .ok v
        | Option.none => .error (.nonGlobal s)
  | .getattr _ _ => .error (.assembly ("Getattr"))
  | .call _ _ => .error (.assembly ("CallFunc"))

/-- Python `map(self.eval, node.getChildren())`: left to right, the first
exception propagates. -/
def evalChildren (g : List (String × Val)) : List Expr → Except Err (List Val)
  | [] => .ok []
  | e :: es => do
      let v ← eval g e
      let vs ← evalChildren g es
      .ok (v :: vs)

/-- Evaluation of all the keys of a dict literal (done before any value is
evaluated, as the source does). -/
def evalKeys (g : List (String × Val)) : List (Expr × Expr) → Except Err (List Val)
  | [] => .ok []
  | (k, _) :: rest => do
      let v ← eval g k
      let vs ← evalKeys g rest
      .ok (v :: vs)

/-- Evaluation of all the values of a dict literal (after all the keys). -/
def evalVals (g : List (String × Val)) : List (Expr × Expr) → Except Err (List Val)
  | [] => .ok []
  | (_, v) :: rest => do
      let w ← eval g v
      let ws ← evalVals g rest
      .ok (w :: ws)

end

/-! ## Decorator flattening -/

/-- One entry of `decorator.getChildren()`.  For a called decorator
(`@route('/x')`) the children are the callee node followed by the argument
nodes (`Keyword` nodes for keyword arguments) and possibly `None` entries
(the star/double-star slots); for a bare decorator (`@route`) the only child
is the raw name string itself. -/
inductive Child where
  | strName (s : String)
  | expr (e : Expr)
  | keyword (name : String) (value : Expr)
  | noneChild

/-- The `flatten_name` helper restricted to expression nodes: `Name` yields
its identifier, `Getattr` recursively flattens its base and appends
`.attrname`, everything else raises. -/
def flattenNameExpr : Expr → Except Err String
  | .name s => .ok s
  | .getattr e a => do
      let b ← flattenNameExpr e
      .ok (b ++ "." ++ a)
  | _ => .error (.cannotFlatten ("expr"))

/-- `flatten_name`: flattens a node into a string, but only if it is a
`str`, an `ast.Name` or an `ast.Getattr`; any other node raises a bare
`Exception`. -/
def flatten_name : Child → Except Err String
  | .strName s => .ok s
  | .expr e => flattenNameExpr e
  | .keyword _ _ => .error (.cannotFlatten ("Keyword"))
  | .noneChild => .error (.cannotFlatten ("None"))

/-- The flattened form of one decorator: its dotted name, its evaluated
positional arguments, and its evaluated keyword arguments. -/
structure Flat where
  name : String
  args : List Val
  kwargs : List (String × Val)

/-- Equality of two flattened decorators, modelling the Python `==` used by
`decorators.remove` (dict comparison; see `Val.beq` for the numeric
refinement note). -/
def Flat.beq (a b : Flat) : Bool :=
  a.name == b.name && Val.beqList a.args b.args && kwargsBeq a.kwargs b.kwargs
where
  kwargsBeq : List (String × Val) → List (String × Val) → Bool
    | [], [] => true
    | (k, v) :: as, (k', v') :: bs => k == k' && Val.beq v v' && kwargsBeq as bs
    | _, _ => false

/-- The loop of `flattenDecorator` over `nodes[1:]`: a `Keyword` child sets
`kwargs[node.name] = eval(node.expr)`, a `None` child is skipped, any other
child is evaluated and appended to `args`.  (A raw string child reaches
`self.eval`, whose catch-all branch raises `AssemblyError`.) -/
def flattenDecoratorArgs (g : List (String × Val)) :
    List Child → List Val → List (String × Val) → Except Err (List Val × List (String × Val))
  | [], args, kwargs => .ok (args, kwargs)
  | .keyword k e :: rest, args, kwargs => do
      let v ← eval g e
      flattenDecoratorArgs g rest args (assocUpdate k v kwargs)
  | .noneChild :: rest, args, kwargs => flattenDecoratorArgs g rest args kwargs
  | .strName _ :: _, _, _ => .error (.assembly ("str"))
  | .expr e :: rest, args, kwargs => do
      let v ← eval g e
      flattenDecoratorArgs g rest (args ++ [v]) kwargs

/-- `_RouteFindingASTVisitor.flattenDecorator`: the first child is flattened
into the decorator name (raising if it is not name-like), the remaining
children become the positional and keyword arguments. -/
def flattenDecorator (g : List (String × Val)) (children : List Child) : Except Err Flat := do
  match children with
  | [] => .error .indexErr
  | c0 :: rest =>
      let n ← flatten_name c0
      let (args, kwargs) ← flattenDecoratorArgs g rest [] []
      .ok { name := n, args := args, kwargs := kwargs }

/-! ## The route-decorator name pattern -/

/-- The compiled regular expression ``(.+\\.)?route$`` applied with
`re.match`: the whole string must be the identifier `route`, or any nonempty
newline-free chain followed by `.route`.  (`re.match` anchors at the start;
the `$` anchors at the end.  Flattened decorator names are dotted identifier
chains, which never contain newlines.) -/
def routeNameMatch (cs : List Char) : Bool :=
  cs == ('r' :: 'o' :: 'u' :: 't' :: 'e' :: []) ||
    (6 < cs.length &&
      cs.drop (cs.length - 6) == ('.' :: 'r' :: 'o' :: 'u' :: 't' :: 'e' :: []) &&
      (cs.take (cs.length - 6)).all (fun c => c ≠ '\n'))

/-- `_route_decorator_name.match` on a flattened decorator name. -/
def routeDecoratorName (s : String) : Bool :=
  routeNameMatch s.toList

/-- Python `list.remove`: drop the first element satisfying the equality
test. -/
def removeFirst {α : Type} (p : α → Bool) : List α → List α
  | [] => []
  | x :: xs => if p x then xs else x :: removeFirst p xs

/-- The route-decorator selection step of `visitFunction`: filter the
flattened decorators by the route-name pattern; if any match, the first
match is the route decorator and is removed (by equality, as `list.remove`
does) from the decorator list, the remainder becoming the other
decorators. -/
def selectRouteDecorator (flats : List Flat) : Option (Flat × List Flat) :=
  match flats.filter (fun fl => routeDecoratorName fl.name) with
  | [] => Option.none
  | m :: _ => some (m, removeFirst (fun d => Flat.beq d m) flats)

/-! ## String helpers (Python semantics, structurally recursive) -/

/-- The characters Python treats as whitespace in `str.strip` and `\\S`. -/
def pySpace (c : Char) : Bool :=
  c = ' ' || c = '\t' || c = '\n' || c = '\r' || c = '\x0b' || c = '\x0c'

/-- Python `s.split(sep)` for a one-character separator (always at least one
fragment; empty fragments are kept). -/
def splitOnChar (sep : Char) : List Char → List (List Char)
  | [] => [[]]
  | c :: cs =>
      if c = sep then [] :: splitOnChar sep cs
      else match splitOnChar sep cs with
        | [] => [[c]]
        | w :: ws => (c :: w) :: ws

/-- Python `sep.join(parts)` for a one-character separator. -/
def joinWith (sep : Char) : List (List Char) → List Char
  | [] => []
  | [w] => w
  | w :: ws => w ++ sep :: joinWith sep ws

/-- `s.split(sep)` on strings. -/
def pySplit (sep : Char) (s : String) : List String :=
  (splitOnChar sep s.toList).map List.asString

/-- `sep.join(parts)` on strings. -/
def pyJoin (sep : Char) (parts : List String) : String :=
  (joinWith sep (parts.map String.toList)).asString

/-- List version of `startsWith`. -/
def listStartsWith : List Char → List Char → Bool
  | [], _ => true
  | _ :: _, [] => false
  | p :: ps, c :: cs => p == c && listStartsWith ps cs

/-! ## The `urlparse.urljoin` collaborator

Modelled from the spec: `analyzeRoute` calls the Python 2 standard-library
`urlparse.urljoin` (an external collaborator, not part of this repository)
on a base of the form `http://<prepath>` and a relative reference that is a
plain path (it contains no scheme, netloc, query or fragment, and does not
start with `/`, because empty fragments were dropped before joining).  The
definitions below transliterate that code path of `urljoin`/`urlunsplit`:
merge the base path (minus its last segment) with the relative path, remove
`.` segments, resolve `..` segments, and reassemble, inserting `//` and the
netloc only when the netloc (the prepath up to its first slash) is
nonempty. -/

/-- One pass of the `..`-resolution loop of `urljoin`: delete the first
`segments[i-1:i+1]` with `0 < i < len - 1`, `segments[i] = ".."` and
`segments[i-1]` neither empty nor `".."`. -/
def delDotDotStep (segs : List String) : Option (List String) :=
  match (List.range segs.length).find? (fun i =>
      decide (1 ≤ i) && decide (i < segs.length - 1) &&
      (segs.getD i ("") == "..") &&
      (segs.getD (i - 1) ("") != "") && (segs.getD (i - 1) ("") != "..")) with
  | some i => some (segs.take (i - 1) ++ segs.drop (i + 1))
  | Option.none => Option.none

/-- The `..`-resolution loop, fuelled by the segment count (each step removes
two segments, so the fuel suffices). -/
def delDotDot : Nat → List String → List String
  | 0, segs => segs
  | fuel + 1, segs =>
      match delDotDotStep segs with
      | some segs' => delDotDot fuel segs'
      | Option.none => segs

/-- `urlparse` of the base `http://<prepath>`: the netloc is the prepath up
to its first `/`, the base path is the remainder. -/
def splitNetloc (prepath : String) : String × String :=
  let cs := prepath.toList
  ((cs.takeWhile (fun c => c ≠ '/')).asString, (cs.dropWhile (fun c => c ≠ '/')).asString)

/-- `urljoin('http://' + prepath, rel)` for a plain relative path `rel` (see
the section comment). -/
def urljoinHttp (prepath rel : String) : String :=
  let nb := splitNetloc prepath
  if rel = "" then "http://" ++ prepath
  else
    let segs0 := ((pySplit '/' nb.2).dropLast) ++ pySplit '/' rel
    let segs1 := if segs0.getLast? = some (".") then segs0.dropLast ++ [""] else segs0
    let segs2 := segs1.filter (fun s => s ≠ ".")
    let segs3 := delDotDot segs2.length segs2
    let segs4 :=
      if segs3 = ["", ".."] then ["", ""]
      else if 2 ≤ segs3.length ∧ segs3.getLast? = some ("..") then segs3.dropLast.dropLast ++ [""]
      else segs3
    let path := pyJoin '/' segs4
    if nb.1 ≠ "" ∨ listStartsWith ('/' :: '/' :: []) path.toList then
      let p := if path ≠ "" ∧ ¬ listStartsWith ('/' :: []) path.toList then "/" ++ path else path
      "http://" ++ nb.1 ++ p
    else "http:" ++ path

/-! ## Route analysis -/

/-- The dictionary produced by `analyzeRoute`: the normalized rule, the
methods value, and the remaining keyword arguments passed on to the werkzeug
rule. -/
structure RouteInfo where
  rule : String
  methods : Val
  kwargs : List (String × Val)

/-- `_RouteFindingASTVisitor.analyzeRoute`: take the first positional
argument of the flattened route decorator as the raw rule (an `IndexError`
when there is none, an `AttributeError` when it is not a string, since only
strings have `split`), split it on `/` and keep the fragments that are
nonempty after stripping, join against the prepath through
`urljoin('http://<prepath>', ...)` and drop the seven-character scheme
placeholder, prepend `/` when missing; `methods` is the `methods` keyword
argument when present, else `['GET']`, and the keyword arguments minus
`methods` are forwarded as the werkzeug kwargs. -/
def analyzeRoute (prepath : String) (route : Flat) : Except Err RouteInfo := do
  let first ← match route.args with
    | [] => .error .indexErr
    | v :: _ => .ok v
  let rawRule ← match first with
    | .str s => .ok s
    | _ => .error .attributeErr
  let fragments := (pySplit '/' rawRule).filter
    (fun part => part.toList.any (fun c => ¬ pySpace c))
  let url0 := (urljoinHttp prepath (pyJoin '/' fragments)).drop 7
  let url := if listStartsWith ('/' :: []) url0.toList then url0 else "/" ++ url0
  let methods := match assocFind ("methods") route.kwargs with
    | some v => v
    | Option.none => .list [.str ("GET")]
  let kwargs :=
    if (assocFind ("methods") route.kwargs).isSome
    then assocErase ("methods") route.kwargs
    else route.kwargs
  .ok { rule := url, methods := methods, kwargs := kwargs }

/-! ## Route model: path and pathTypes -/

/-- Splits a character list at its rightmost `:` that has a nonempty suffix,
returning the parts before and after that colon.  This realizes the greedy
choice of ``\\S+`` for the `type` group of `_fragment_finder`: the type part
extends as far right as a nonempty name part allows. -/
def splitAtLastColon : List Char → Option (List Char × List Char)
  | [] => Option.none
  | c :: cs =>
      match splitAtLastColon cs with
      | some (t, n) => some (c :: t, n)
      | Option.none => if c = ':' ∧ cs ≠ [] then some ([], cs) else Option.none

/-- The compiled regular expression ``^\\<(?P<type>\\S+):(?P<name>\\S+)\\>$``
applied to one path fragment: the fragment must be `<`, then a nonempty
whitespace-free body containing a colon that splits it into a nonempty type
and a nonempty name (the type greedy, hence split at the last usable colon),
then `>` at the very end.  Returns `(type, name)` on success. -/
def matchFragment (s : String) : Option (String × String) :=
  match s.toList with
  | '<' :: rest =>
      let body := rest.dropLast
      if rest.getLast? = some '>' ∧ body.all (fun c => ¬ pySpace c) then
        match splitAtLastColon body with
        | some (t, n) => if t ≠ [] then some (t.asString, n.asString) else Option.none
        | Option.none => Option.none
      else Option.none
  | _ => Option.none

/-- The fragment rewrite of `_pretty_parse_rule`: `"{{{0}}}".format(name)`,
that is the name wrapped in braces. -/
def braced (n : String) : String :=
  "\x7b" ++ n ++ "\x7d"

/-- One iteration of the fragment loop of `_pretty_parse_rule`: a matching
fragment records its name-to-type binding and is rewritten to the braced
name, any other fragment is kept as is. -/
def parseRuleStep (acc : List (String × String) × List String) (frag : String) :
    List (String × String) × List String :=
  match matchFragment frag with
  | some (ty, nm) => (assocUpdate nm ty acc.1, acc.2 ++ [braced nm])
  | Option.none => (acc.1, acc.2 ++ [frag])

/-- `Route._pretty_parse_rule`: split the rule on `/`; every fragment
matching `_fragment_finder` records `path_types[name] = type` and is
rewritten to `{name}`; the fragments are rejoined with `/`.  Returns the
pretty path together with the accumulated name-to-type dictionary. -/
def prettyParseRule (rule : String) : String × List (String × String) :=
  let r := (pySplit '/' rule).foldl parseRuleStep ([], [])
  (pyJoin '/' r.2, r.1)

/-! ## Route model: title -/

def isAsciiLower (c : Char) : Bool := 'a' ≤ c && c ≤ 'z'

def isAsciiUpper (c : Char) : Bool := 'A' ≤ c && c ≤ 'Z'

def isAsciiDigit (c : Char) : Bool := '0' ≤ c && c ≤ '9'

def isAsciiAlpha (c : Char) : Bool := isAsciiLower c || isAsciiUpper c

/-- `re.sub` for the first camel-case pattern ``(.)([A-Z][a-z]+)`` with
replacement ``\\1_\\2``: scanning left to right, any non-newline character
followed by an uppercase letter and a greedy nonempty lowercase run gets an
underscore inserted after it, and scanning resumes after the match.  The
fuel (the input length suffices, every step consuming at least one
character) keeps the recursion structural. -/
def camelSub1 : Nat → List Char → List Char
  | 0, cs => cs
  | _ + 1, [] => []
  | fuel + 1, c1 :: rest =>
      match rest with
      | [] => [c1]
      | c2 :: rest2 =>
          if c1 ≠ '\n' && isAsciiUpper c2 &&
              (match rest2 with | r :: _ => isAsciiLower r | [] => false) then
            c1 :: '_' :: c2 :: (rest2.takeWhile isAsciiLower ++
              camelSub1 fuel (rest2.dropWhile isAsciiLower))
          else c1 :: camelSub1 fuel rest

/-- `re.sub` for the second pattern ``([a-z0-9])([A-Z])`` with replacement
``\\1_\\2``. -/
def camelSub2 : List Char → List Char
  | [] => []
  | [c] => [c]
  | c1 :: c2 :: rest =>
      if (isAsciiLower c1 || isAsciiDigit c1) && isAsciiUpper c2 then
        c1 :: '_' :: c2 :: camelSub2 rest
      else c1 :: camelSub2 (c2 :: rest)

/-- `re.sub` for the third pattern ``([a-zA-Z])([0-9])`` with replacement
``\\1_\\2``. -/
def camelSub3 : List Char → List Char
  | [] => []
  | [c] => [c]
  | c1 :: c2 :: rest =>
      if isAsciiAlpha c1 && isAsciiDigit c2 then
        c1 :: '_' :: c2 :: camelSub3 rest
      else c1 :: camelSub3 (c2 :: rest)

/-- Python `s.strip('_')`. -/
def stripUnderscores (s : String) : String :=
  (((s.toList.dropWhile (fun c => c = '_')).reverse.dropWhile (fun c => c = '_')).reverse).asString

/-- Python `str.isupper`: at least one cased character and no lowercase
cased character (ASCII). -/
def pyIsUpper (s : String) : Bool :=
  s.toList.any isAsciiAlpha && s.toList.all (fun c => ¬ isAsciiAlpha c || isAsciiUpper c)

/-- Python `str.islower`: at least one cased character and no uppercase
cased character (ASCII). -/
def pyIsLower (s : String) : Bool :=
  s.toList.any isAsciiAlpha && s.toList.all (fun c => ¬ isAsciiAlpha c || isAsciiLower c)

/-- Python `str.lower` (ASCII). -/
def pyLower (s : String) : String :=
  (s.toList.map Char.toLower).asString

/-- Python 2 `str.capitalize`: uppercase the first character, lowercase the
rest. -/
def pyCapitalize (s : String) : String :=
  match s.toList with
  | [] => ""
  | c :: rest => (c.toUpper :: rest.map Char.toLower).asString

/-- The `_maybe_lower` helper of `Route.title`: keep all-uppercase words,
lowercase the rest. -/
def maybeLower (w : String) : String :=
  if pyIsUpper w then w else pyLower w

/-- The `_maybe_capitalize` helper of `Route.title`: capitalize an
all-lowercase word; otherwise uppercase just its first character (an
`IndexError` on the empty word, since `word[0]` is taken). -/
def maybeCapitalize (w : String) : Except Err String :=
  if pyIsLower w then .ok (pyCapitalize w)
  else match w.toList with
    | [] => .error .indexErr
    | c :: rest => .ok ((c.toUpper :: rest).asString)

/-- `Route.title`: strip surrounding underscores from the handler name; when
no underscore remains, insert underscores at the three camel-case boundary
patterns (in the order they appear in `_camel_cased`); split on underscores;
capitalize the first word and maybe-lowercase the rest; join with single
spaces. -/
def titleOf (handlerName : String) : Except Err String := do
  let t0 := stripUnderscores handlerName
  let t1 :=
    if t0.toList.contains '_' then t0
    else (camelSub3 (camelSub2 (camelSub1 t0.toList.length t0.toList))).asString
  match pySplit '_' t1 with
  | [] => .error .indexErr
  | w :: ws => do
      let first ← maybeCapitalize w
      .ok (pyJoin ' ' (first :: ws.map maybeLower))

/-! ## Route model: docstring -/

/-- Python `str.expandtabs()` with the default tab size of eight: a tab
advances to the next multiple of eight, newlines and carriage returns reset
the column. -/
def expandTabs : List Char → Nat → List Char
  | [], _ => []
  | c :: rest, col =>
      if c = '\t' then
        List.replicate (8 - col % 8) ' ' ++ expandTabs rest (col + (8 - col % 8))
      else if c = '\n' ∨ c = '\r' then c :: expandTabs rest 0
      else c :: expandTabs rest (col + 1)

/-- Python `s.lstrip()`. -/
def pyLStrip (s : String) : String :=
  (s.toList.dropWhile pySpace).asString

/-- Drop trailing empty strings (the `while lines and not lines[-1]:
lines.pop()` loop). -/
def dropTrailingEmpties (lines : List String) : List String :=
  (lines.reverse.dropWhile (fun l => l = "")).reverse

/-- `inspect.cleandoc` (Python 2.7): expand tabs, split into lines, compute
the minimum indentation of the nonblank lines after the first, strip the
first line, dedent the rest by that margin, and drop surrounding blank
lines. -/
def cleandoc (doc : String) : String :=
  let lines := pySplit '\n' ((expandTabs doc.toList 0).asString)
  let margins := (lines.drop 1).filterMap (fun line =>
    let content := (pyLStrip line).length
    if 0 < content then some (line.length - content) else Option.none)
  let lines := match lines with
    | [] => []
    | l0 :: rest => pyLStrip l0 :: rest
  let lines := match margins.min? with
    | some m =>
        match lines with
        | [] => []
        | l0 :: rest => l0 :: rest.map (fun l => (l.toList.drop m).asString)
    | Option.none => lines
  pyJoin '\n' (dropTrailingEmpties lines |>.dropWhile (fun l => l = ""))

/-- `Route.docstring`: `cleandoc` of the handler node's documentation.  A
handler without a docstring has `doc = None`, on which `cleandoc` raises
`AttributeError` (`string.expandtabs(None)` calls `None.expandtabs`; the
guard in the property replaces a `None` *result* of `cleandoc` — which only
the unicode-error path can produce, and which this model cannot reach — by
the empty string, but never runs for a `None` *input*). -/
def routeDocstring : Option String → Except Err String
  | Option.none => .error .attributeErr
  | some d => .ok (cleandoc d)

/-! ## The route-finding visitor -/

/-- A `Function` node: its name, its optional documentation string, and its
list of decorator nodes (each given by its `getChildren()` list). -/
structure FuncDef where
  name : String
  doc : Option String
  decorators : List (List Child)

/-- A `Route` as constructed by `visitFunction`: the analyzed rule, methods
and werkzeug kwargs, the other flattened decorators, and the handler's name
and documentation kept from the AST node (`handler_name` and `docstring` are
derived views over them). -/
structure RouteRec where
  rule : String
  methods : Val
  werkzeug_kwargs : List (String × Val)
  decorators : List Flat
  handler_name : String
  doc : Option String

/-- The body of the `try` block of `visitFunction` for one decorated
function: flatten every decorator (the first failure propagating), filter
for route-pattern names; when none match the function is not a route; when
some match, the first match is consumed as the route decorator, the
remainder become the other decorators, and `analyzeRoute` builds the route
information. -/
def processFunction (g : List (String × Val)) (prepath : String) (f : FuncDef) :
    Except Err (Option RouteRec) :=
  if f.decorators.isEmpty then .ok Option.none
  else do
    let flats ← flattenAll g f.decorators
    match selectRouteDecorator flats with
    | Option.none => .ok Option.none
    | some (m, others) => do
        let info ← analyzeRoute prepath m
        .ok (some { rule := info.rule, methods := info.methods,
                    werkzeug_kwargs := info.kwargs, decorators := others,
                    handler_name := f.name, doc := f.doc })
where
  /-- The list comprehension `[self.flattenDecorator(d) for d in
  node.decorators]`: left to right, the first exception propagates. -/
  flattenAll (g : List (String × Val)) : List (List Child) → Except Err (List Flat)
    | [] => .ok []
    | d :: ds => do
        let fl ← flattenDecorator g d
        let fls ← flattenAll g ds
        .ok (fl :: fls)

/-- `visitFunction` with its `try`/`except Exception` boundary: a successful
analysis contributes its route (if the function is one) and no diagnostic;
any raised exception is caught, the function is skipped, and one warning
diagnostic is emitted. -/
def visitFunction (g : List (String × Val)) (prepath : String) (f : FuncDef) :
    List RouteRec × List Err :=
  match processFunction g prepath f with
  | .ok Option.none => ([], [])
  | .ok (some r) => ([r], [])
  | .error e => ([], [e])

mutual

/-- A node of the module syntax tree as the visitor sees it: a function
definition, a container node (`Module`/`Stmt`, whose children are visited in
order), or any other node kind (the visitor's `default` is a no-op). -/
inductive ModNode where
  | func (f : FuncDef)
  | container (children : ModNodeList)
  | leaf

/-- The ordered children of a container node. -/
inductive ModNodeList where
  | nil
  | cons (hd : ModNode) (tl : ModNodeList)

end

mutual

/-- The visitor's walk over one node: `visitFunction` on function nodes,
recursion over the children of container nodes (`visitStmt = visitModule =
doRecurse`), and a no-op on everything else.  It returns the routes
collected in order together with the emitted diagnostics. -/
def visitTree (g : List (String × Val)) (prepath : String) :
    ModNode → List RouteRec × List Err
  | .func f => visitFunction g prepath f
  | .leaf => ([], [])
  | .container cs => visitTrees g prepath cs

def visitTrees (g : List (String × Val)) (prepath : String) :
    ModNodeList → List RouteRec × List Err
  | .nil => ([], [])
  | .cons n ns =>
      let a := visitTree g prepath n
      let b := visitTrees g prepath ns
      (a.1 ++ b.1, a.2 ++ b.2)

end

mutual

/-- The function-definition nodes of a tree, in visit order. -/
def nodeFuncs : ModNode → List FuncDef
  | .func f => [f]
  | .leaf => []
  | .container cs => nodesFuncs cs

def nodesFuncs : ModNodeList → List FuncDef
  | .nil => []
  | .cons n ns => nodeFuncs n ++ nodesFuncs ns

end

/-- The route a function contributes to the output, if any. -/
def routeOf (g : List (String × Val)) (prepath : String) (f : FuncDef) : Option RouteRec :=
  match processFunction g prepath f with
  | .ok o => o
  | .error _ => Option.none

/-- The diagnostic a function contributes, if any. -/
def diagOf (g : List (String × Val)) (prepath : String) (f : FuncDef) : Option Err :=
  match processFunction g prepath f with
  | .error e => some e
  | .ok _ => Option.none

/-! ## Specification-side definitions (for refinement statements) -/

/-- Spec wording for one fragment of the path rewrite: a fragment matching
`<type:name>` is rewritten to the braced name, any other fragment is left
untouched. -/
def specRewriteFragment (frag : String) : String :=
  match matchFragment frag with
  | some (_, nm) => braced nm
  | Option.none => frag

/-- Spec wording for `path`: split the raw rule on `/`, rewrite each
fragment independently, rejoin with `/`. -/
def specPath (rule : String) : String :=
  pyJoin '/' ((pySplit '/' rule).map specRewriteFragment)

/-- Spec wording for one `pathTypes` contribution: a matching fragment
records `pathTypes[name] = type`, any other fragment contributes nothing. -/
def specTypesStep (m : List (String × String)) (frag : String) : List (String × String) :=
  match matchFragment frag with
  | some (ty, nm) => assocUpdate nm ty m
  | Option.none => m

/-- Spec wording for `pathTypes`: every fragment matching `<type:name>`
contributes `pathTypes[name] = type`, in fragment order. -/
def specPathTypes (rule : String) : List (String × String) :=
  (pySplit '/' rule).foldl specTypesStep []

/-! ## Concrete inputs used by the claim theorems -/

/-- A well-formed route handler: `@route('/x')` with no keyword arguments
(the two trailing `None` children are the empty star-argument slots of a
`CallFunc` node). -/
def goodFunc : FuncDef :=
  { name := "handler", doc := some ("doc"),
    decorators := [[.expr (.name ("route")), .expr (.const (.str ("/x"))), .noneChild, .noneChild]] }

/-- A handler whose sole route decorator argument references a name that is
not among the module globals: `@route(UNDEFINED)`. -/
def badNameFunc : FuncDef :=
  { name := "bad", doc := Option.none,
    decorators := [[.expr (.name ("route")), .expr (.name ("UNDEFINED")), .noneChild, .noneChild]] }

/-- A second well-formed sibling handler: `@app.route('/y')`. -/
def goodFunc2 : FuncDef :=
  { name := "handler2", doc := Option.none,
    decorators := [[.expr (.getattr (.name ("app")) ("route")),
                    .expr (.const (.str ("/y"))), .noneChild, .noneChild]] }

/-- A handler carrying a perfectly good route decorator plus a second
decorator whose callee is a call expression (not name-like):
`@route('/x')` and `@mk()()`. -/
def mixedDecoratorFunc : FuncDef :=
  { name := "h7", doc := Option.none,
    decorators := [[.expr (.name ("route")), .expr (.const (.str ("/x"))), .noneChild, .noneChild],
                   [.expr (.call (.name ("mk")) []), .noneChild, .noneChild]] }

/-- A handler whose route decorator argument is an empty dict literal:
`@route({})`. -/
def emptyDictFunc : FuncDef :=
  { name := "h10", doc := Option.none,
    decorators := [[.expr (.name ("route")), .expr (.dict []), .noneChild, .noneChild]] }

/-- The three-sibling module body: a failing function between two good
ones. -/
def siblingTree : ModNode :=
  .container (.cons (.func goodFunc) (.cons (.func badNameFunc) (.cons (.func goodFunc2) .nil)))

/-- A flattened non-route decorator. -/
def otherFlat : Flat := { name := "wraps", args := [], kwargs := [] }

/-- A flattened `app.route` decorator. -/
def routeFlat : Flat := { name := "app.route", args := [.str ("/x")], kwargs := [] }

/-! ## Claim theorems -/

/-- Monadic bind on a successful `Except` computation beta-reduces. -/
theorem okBind {ε α β : Type} (a : α) (f : α → Except ε β) :
    (Except.ok a >>= f : Except ε β) = f a := rfl

/-- Monadic bind on a failed `Except` computation propagates the error. -/
theorem errBind {ε α β : Type} (e : ε) (f : α → Except ε β) :
    (Except.error e >>= f : Except ε β) = Except.error e := rfl

/-- C10: although mapping literals are in the evaluator's supported node
set, evaluating the empty mapping literal raises (the key/value unzip of
`zip(*node.items)` fails with `ValueError` on zero items) instead of
returning an empty mapping, and a decorator argument containing an empty
dict literal causes that function's route extraction to be skipped with one
diagnostic. -/
theorem c10_empty_dict_raises :
    (∀ g, eval g (.dict []) = .error .valueErr) ∧
    visitFunction [] "" emptyDictFunc = ([], [.valueErr]) :=
  ⟨fun _ => rfl, rfl⟩

/-- C5: title derivation follows the stated algorithm on the six examples of
the specification: `getHTTPResponseCode`, `GoGetStuff`, `Handle92Numbers`,
`__ignoreEndUnderscores__`, `get_HTTP_Response_Code` and
`mixedCamel_and_underscores`. -/
theorem c5_title_examples :
    titleOf ("getHTTPResponseCode") = .ok ("Get HTTP response code") ∧
    titleOf ("GoGetStuff") = .ok ("Go get stuff") ∧
    titleOf ("Handle92Numbers") = .ok ("Handle 92 numbers") ∧
    titleOf ("__ignoreEndUnderscores__") = .ok ("Ignore end underscores") ∧
    titleOf ("get_HTTP_Response_Code") = .ok ("Get HTTP response code") ∧
    titleOf ("mixedCamel_and_underscores") = .ok ("MixedCamel and underscores") :=
  ⟨rfl, rfl, rfl, rfl, rfl, rfl⟩

/-- C8 (code bug): with a docstring present, the docstring view is the
standard clean transform (here on the repository's own test input); but
when the handler has no documentation (`doc = None`), the view raises
`AttributeError` inside `cleandoc` (`None.expandtabs`) instead of producing
the empty string — the `None` guard in `Route.docstring` inspects
`cleandoc`'s result, not its input. -/
theorem c8_docstring_none_raises :
    routeDocstring (some ("\n            indented indented\n            \tmore indented\n            "))
      = .ok ("indented indented\n    more indented") ∧
    routeDocstring Option.none = .error .attributeErr :=
  ⟨rfl, rfl⟩

/-- C2 counterexample: a binary add whose left operand is complex and whose
right operand is a plain integer — not a combination of two complex
numbers — evaluates to a result instead of raising the unsupported-operation
failure, because the source guards with `isinstance(left, complex) or
isinstance(right, complex)`. -/
theorem c2_one_complex_operand_accepted :
    eval [] (.add (.const (.complex 0 1)) (.const (.int 1))) = .ok (.complex 1 1) ∧
    Val.isComplexV (.int 1) = false := by
  refine ⟨?_, rfl⟩
  show Except.ok (Val.complex (0 + 1) (1 + 0)) = Except.ok (Val.complex 1 1)
  norm_num

/-- C2 (amended): a binary add/subtract evaluates both operands and returns
the operation's result exactly when at least one operand is a complex
number (the application itself raising a type failure when the other
operand is not numeric); whenever neither operand is complex — including
two plain numbers or two strings — it raises the unsupported-operation
failure. -/
theorem c2_add_sub_needs_complex_operand (g : List (String × Val)) (l r : Expr) (vl vr : Val)
    (hl : eval g l = .ok vl) (hr : eval g r = .ok vr) :
    (vl.isComplexV = false → vr.isComplexV = false →
      eval g (.add l r) = .error .operation ∧ eval g (.sub l r) = .error .operation) ∧
    (vl.isComplexV = true ∨ vr.isComplexV = true →
      eval g (.add l r) = pyArith true vl vr ∧ eval g (.sub l r) = pyArith false vl vr) := by
  constructor
  · intro h1 h2
    constructor <;> simp [eval, hl, hr, okBind, h1, h2]
  · intro h
    rcases h with h | h <;> constructor <;> simp [eval, hl, hr, okBind, h]

/-- C2 witness: the amended theorem applied to the literal operands `2` and
`3` (neither complex) and to `1j` and `1` (left complex). -/
theorem c2_add_sub_needs_complex_operand_witness :
    (eval [] (.add (.const (.int 2)) (.const (.int 3))) = .error .operation ∧
      eval [] (.sub (.const (.int 2)) (.const (.int 3))) = .error .operation) ∧
    (eval [] (.add (.const (.complex 0 1)) (.const (.int 1)))
        = pyArith true (.complex 0 1) (.int 1) ∧
      eval [] (.sub (.const (.complex 0 1)) (.const (.int 1)))
        = pyArith false (.complex 0 1) (.int 1)) :=
  ⟨(c2_add_sub_needs_complex_operand [] (.const (.int 2)) (.const (.int 3))
      (.int 2) (.int 3) rfl rfl).1 rfl rfl,
   (c2_add_sub_needs_complex_operand [] (.const (.complex 0 1)) (.const (.int 1))
      (.complex 0 1) (.int 1) rfl rfl).2 (Or.inl rfl)⟩

/-- C3: when the route decorator's keyword arguments contain no `methods`
key, the Route is produced with the default `['GET']` methods and the
werkzeug kwargs are exactly the keyword arguments; when `methods` is
present, it becomes the methods value and is removed from the forwarded
kwargs.  In particular `@route('/x')` with no keyword arguments yields one
route whose methods are `['GET']`. -/
theorem c3_methods_default (prepath nm rule : String) (rest : List Val)
    (kwargs : List (String × Val)) :
    (assocFind ("methods") kwargs = Option.none →
      (analyzeRoute prepath { name := nm, args := .str rule :: rest, kwargs := kwargs }).toOption.map
          (fun i => (i.methods, i.kwargs))
        = some (.list [.str ("GET")], kwargs)) ∧
    (∀ v, assocFind ("methods") kwargs = some v →
      (analyzeRoute prepath { name := nm, args := .str rule :: rest, kwargs := kwargs }).toOption.map
          (fun i => (i.methods, i.kwargs))
        = some (v, assocErase ("methods") kwargs)) ∧
    (visitFunction [] "" goodFunc).1.map RouteRec.methods = [.list [.str ("GET")]] := by
  refine ⟨?_, ?_, rfl⟩
  · intro h
    simp [analyzeRoute, okBind, h, Except.toOption]
  · intro v h
    simp [analyzeRoute, okBind, h, Except.toOption]

/-- C3 witness: the theorem applied to `@route('/x')` — the flattened
decorator has the rule as its sole positional argument and no keyword
arguments. -/
theorem c3_methods_default_witness :
    (analyzeRoute "" { name := "route", args := [.str ("/x")], kwargs := [] }).toOption.map
        (fun i => (i.methods, i.kwargs))
      = some (.list [.str ("GET")], []) :=
  (c3_methods_default "" "route" "/x" [] []).1 rfl

/-- C9 counterexample: a route decorator that explicitly passes
`methods=[]` produces a Route whose methods collection is the empty list —
the analyzer forwards an explicit `methods` value unchecked, so the
produced methods are not always nonempty. -/
theorem c9_explicit_empty_methods :
    analyzeRoute "" { name := "route", args := [.str ("/x")], kwargs := [("methods", .list [])] }
      = .ok { rule := "/", methods := .list [], kwargs := [] } := rfl

/-- C9 (amended): the methods of a produced Route are nonempty whenever the
decorator does not explicitly pass a `methods` keyword: the default is the
one-element list `['GET']`.  An explicitly passed `methods` value (even an
empty collection) is used as is. -/
theorem c9_default_methods_nonempty (prepath nm rule : String) (rest : List Val)
    (kwargs : List (String × Val)) (h : assocFind ("methods") kwargs = Option.none) :
    (analyzeRoute prepath { name := nm, args := .str rule :: rest, kwargs := kwargs }).toOption.map
        RouteInfo.methods = some (.list [.str ("GET")]) ∧
    Val.beq (.list [.str ("GET")]) (.list []) = false := by
  refine ⟨?_, rfl⟩
  simp [analyzeRoute, okBind, h, Except.toOption]

/-- C9 witness: the amended theorem applied to `@route('/x')` with no
keyword arguments. -/
theorem c9_default_methods_nonempty_witness :
    (analyzeRoute "" { name := "route", args := [.str ("/x")], kwargs := [] }).toOption.map
        RouteInfo.methods = some (.list [.str ("GET")]) ∧
    Val.beq (.list [.str ("GET")]) (.list []) = false :=
  c9_default_methods_nonempty "" "route" "/x" [] [] rfl

/-- The fragment loop of `_pretty_parse_rule` computes, in one pass, the
types dictionary and the rewritten fragment list. -/
theorem parseRuleStep_foldl (frags : List String) :
    ∀ (accT : List (String × String)) (accP : List String),
      frags.foldl parseRuleStep (accT, accP)
        = (frags.foldl specTypesStep accT, accP ++ frags.map specRewriteFragment) := by
  induction frags with
  | nil => intro accT accP; simp
  | cons f fs ih =>
      intro accT accP
      cases h : matchFragment f with
      | none => simp [parseRuleStep, specTypesStep, specRewriteFragment, h, ih]
      | some tn =>
          obtain ⟨ty, nm⟩ := tn
          simp [parseRuleStep, specTypesStep, specRewriteFragment, h, ih]

/-- C4: `path` and `pathTypes` are computed together from the single split
of the raw rule on `/`: every fragment matching `<type:name>` is rewritten
to the braced name and contributes `pathTypes[name] = type`, every other
fragment is left unchanged, and the fragments are rejoined with `/`.  In
particular the specification's example rule produces the expected path and
the expected two typed parameters. -/
theorem c4_path_and_path_types :
    (∀ rule, prettyParseRule rule = (specPath rule, specPathTypes rule)) ∧
    prettyParseRule ("/meh/<string(length=2):name1>/<int(min=3):name2>/something")
      = ("/meh/\x7bname1\x7d/\x7bname2\x7d/something",
         [("name1", "string(length=2)"), ("name2", "int(min=3)")]) := by
  refine ⟨?_, rfl⟩
  intro rule
  simp [prettyParseRule, specPath, specPathTypes, parseRuleStep_foldl]

mutual

/-- The walk over one node returns exactly the routes of the functions whose
processing succeeds and exactly the diagnostics of the functions whose
processing raises. -/
theorem visitTree_eq (g : List (String × Val)) (p : String) :
    ∀ t : ModNode,
      visitTree g p t = ((nodeFuncs t).filterMap (routeOf g p), (nodeFuncs t).filterMap (diagOf g p))
  | .func f => by
      cases h : processFunction g p f with
      | error e => simp [visitTree, visitFunction, nodeFuncs, routeOf, diagOf, h]
      | ok o => cases o <;> simp [visitTree, visitFunction, nodeFuncs, routeOf, diagOf, h]
  | .leaf => by simp [visitTree, nodeFuncs]
  | .container cs => by
      simp [visitTree, nodeFuncs, visitTrees_eq g p cs]

/-- List version of `visitTree_eq`. -/
theorem visitTrees_eq (g : List (String × Val)) (p : String) :
    ∀ ns : ModNodeList,
      visitTrees g p ns
        = ((nodesFuncs ns).filterMap (routeOf g p), (nodesFuncs ns).filterMap (diagOf g p))
  | .nil => by simp [visitTrees, nodesFuncs]
  | .cons n ns => by
      simp [visitTrees, nodesFuncs, visitTree_eq g p n, visitTrees_eq g p ns]

end

/-- C1 (failure isolation): for every module tree, the walk is total and
returns, in order, exactly the routes of the functions whose flattening and
building succeeds, together with one diagnostic per function whose
processing raised — a failure never removes another function's route and
never propagates out of the walk.  In particular, in a module whose middle
function references an undefined global in its route argument, that
function alone yields no route and one `NonGlobalError` diagnostic while
both siblings are still extracted. -/
theorem c1_failure_isolation :
    (∀ (g : List (String × Val)) (p : String) (t : ModNode),
      visitTree g p t
        = ((nodeFuncs t).filterMap (routeOf g p), (nodeFuncs t).filterMap (diagOf g p))) ∧
    visitTree [] "" siblingTree
      = ([{ rule := "/", methods := .list [.str ("GET")], werkzeug_kwargs := [],
            decorators := [], handler_name := "handler", doc := some ("doc") },
          { rule := "/", methods := .list [.str ("GET")], werkzeug_kwargs := [],
            decorators := [], handler_name := "handler2", doc := Option.none }],
         [.nonGlobal ("UNDEFINED")]) :=
  ⟨fun g p t => visitTree_eq g p t, rfl⟩

mutual

/-- Structural value equality is reflexive. -/
theorem Val.beq_refl : ∀ v : Val, Val.beq v v = true
  | .noneV => rfl
  | .bool b => by simp [Val.beq]
  | .int i => by simp [Val.beq]
  | .float q => by simp [Val.beq]
  | .complex a b => by simp [Val.beq]
  | .str s => by simp [Val.beq]
  | .list xs => by simp [Val.beq, Val.beqList_refl xs]
  | .tuple xs => by simp [Val.beq, Val.beqList_refl xs]
  | .dict xs => by simp [Val.beq, Val.beqPairs_refl xs]

theorem Val.beqList_refl : ∀ l : List Val, Val.beqList l l = true
  | [] => rfl
  | a :: as => by simp [Val.beqList, Val.beq_refl a, Val.beqList_refl as]

theorem Val.beqPairs_refl : ∀ l : List (Val × Val), Val.beqPairs l l = true
  | [] => rfl
  | (k, v) :: as => by simp [Val.beqPairs, Val.beq_refl k, Val.beq_refl v, Val.beqPairs_refl as]

end

/-- Keyword-argument equality is reflexive. -/
theorem kwargsBeq_refl : ∀ l : List (String × Val), Flat.beq.kwargsBeq l l = true
  | [] => rfl
  | (k, v) :: rest => by simp [Flat.beq.kwargsBeq, Val.beq_refl v, kwargsBeq_refl rest]

/-- Flattened-decorator equality is reflexive. -/
theorem flatBeqRefl (f : Flat) : Flat.beq f f = true := by
  simp [Flat.beq, Val.beqList_refl, kwargsBeq_refl]

/-- Equal flattened decorators have equal names (so any equality used by
`list.remove` refines name-equality). -/
theorem Flat.beq_name {a b : Flat} (h : Flat.beq a b = true) : a.name = b.name := by
  simp only [Flat.beq, Bool.and_eq_true, beq_iff_eq] at h
  exact h.1.1

/-- `removeFirst` removes exactly the head match when everything before it
fails the test. -/
theorem removeFirst_of_first {α : Type} (p : α → Bool) :
    ∀ (pre : List α) (m : α) (post : List α),
      (∀ d ∈ pre, p d = false) → p m = true →
      removeFirst p (pre ++ m :: post) = pre ++ post := by
  intro pre
  induction pre with
  | nil => intro m post _ hm; simp [removeFirst, hm]
  | cons a as ih =>
      intro m post hpre hm
      have ha : p a = false := hpre a (by simp)
      simp only [List.cons_append, removeFirst, ha, Bool.false_eq_true, if_false]
      exact congrArg (List.cons a) (ih m post (fun d hd => hpre d (by simp [hd])) hm)

/-- C6: a decorator is selected as the route decorator exactly when its
flattened name matches `(.+\\.)?route$` — the identifier `route` or a
nonempty (newline-free) chain followed by `.route`; a name merely ending
in the letters `route`, such as `reroute`, does not match.  When several
decorators match, the first match in source order is consumed as the route
decorator and the other decorators, matching or not, are kept in source
order minus the consumed one. -/
theorem c6_route_selection :
    (∀ s : String, routeDecoratorName s = true ↔
        (s = "route" ∨
          ∃ pre : String, pre ≠ "" ∧ (∀ c ∈ pre.toList, c ≠ '\n') ∧ s = pre ++ ".route")) ∧
    (routeDecoratorName ("route") = true ∧ routeDecoratorName ("app.route") = true ∧
      routeDecoratorName ("reroute") = false) ∧
    (∀ (pre post : List Flat) (m : Flat),
        (∀ d ∈ pre, routeDecoratorName d.name = false) → routeDecoratorName m.name = true →
        selectRouteDecorator (pre ++ m :: post) = some (m, pre ++ post)) := by
  refine ⟨?_, ⟨rfl, rfl, rfl⟩, ?_⟩
  · intro s
    constructor
    · intro h
      simp only [routeDecoratorName, routeNameMatch, Bool.or_eq_true, Bool.and_eq_true,
        beq_iff_eq, decide_eq_true_eq, List.all_eq_true] at h
      rcases h with h | ⟨⟨h6, hdrop⟩, hall⟩
      · left
        apply String.ext
        exact h
      · right
        refine ⟨⟨s.toList.take (s.toList.length - 6)⟩, ?_, ?_, ?_⟩
        · intro hcontra
          have : (s.toList.take (s.toList.length - 6)).length = 0 := by
            have := congrArg String.length hcontra
            simpa using this
          simp only [List.length_take] at this
          omega
        · intro c hc
          exact hall c hc
        · apply String.ext
          show s.data = (s.toList.take (s.toList.length - 6)) ++ (".route").data
          rw [show ((".route") : String).data = s.toList.drop (s.toList.length - 6) from hdrop.symm]
          exact (List.take_append_drop _ s.toList).symm
    · intro h
      rcases h with h | ⟨pre, hne, hnl, heq⟩
      · subst h; rfl
      · subst heq
        simp only [routeDecoratorName, routeNameMatch, Bool.or_eq_true, Bool.and_eq_true,
          beq_iff_eq, decide_eq_true_eq, List.all_eq_true]
        right
        have hdata : (pre ++ (".route") : String).toList = pre.toList ++ (".route").toList := by
          simp [String.toList, String.data_append]
        have hplen : 0 < pre.toList.length := by
          rcases hl : pre.toList with _ | ⟨c, cs⟩
          · exact absurd (String.ext (by simpa [String.toList] using hl)) hne
          · simp
        have hlen : (pre ++ (".route") : String).toList.length = pre.toList.length + 6 := by
          simp [hdata]
        have hsix : ((".route") : String).toList.length = 6 := rfl
        have hl2 : (pre.toList ++ ((".route") : String).toList).length - 6 = pre.toList.length := by
          rw [List.length_append, hsix]
          omega
        refine ⟨⟨by rw [hlen]; omega, ?_⟩, ?_⟩
        · rw [hdata, hl2, List.drop_left]
          rfl
        · intro c hc
          rw [hdata, hl2, List.take_left] at hc
          exact hnl c hc
  · intro pre post m hpre hm
    have hfilter : (pre ++ m :: post).filter (fun fl => routeDecoratorName fl.name)
        = m :: post.filter (fun fl => routeDecoratorName fl.name) := by
      rw [List.filter_append, List.filter_cons_of_pos (by simpa using hm),
        List.filter_eq_nil_iff.mpr (by intro d hd; simpa using hpre d hd)]
      rfl
    have hbeq : ∀ d ∈ pre, Flat.beq d m = false := by
      intro d hd
      by_contra hcon
      have htrue : Flat.beq d m = true := by
        cases hb : Flat.beq d m
        · exact absurd hb hcon
        · rfl
      have hnames := Flat.beq_name htrue
      have hfalse := hpre d hd
      rw [hnames] at hfalse
      rw [hfalse] at hm
      exact Bool.noConfusion hm
    simp only [selectRouteDecorator, hfilter]
    rw [removeFirst_of_first _ pre m post hbeq (flatBeqRefl m)]

/-- C6 witness: the selection applied to a non-matching decorator followed
by an `app.route` decorator — the route decorator is the match and the
other decorator is kept. -/
theorem c6_route_selection_witness :
    selectRouteDecorator [otherFlat, routeFlat] = some (routeFlat, [otherFlat]) :=
  c6_route_selection.2.2 [otherFlat] [] routeFlat
    (by intro d hd; simp only [List.mem_singleton] at hd; subst hd; rfl) rfl

/-- If any decorator of the list fails to flatten, the whole flattening
comprehension raises. -/
theorem flattenAll_error (g : List (String × Val)) :
    ∀ ds : List (List Child),
      (∃ d ∈ ds, ∃ e, flattenDecorator g d = .error e) →
      ∃ e', processFunction.flattenAll g ds = .error e' := by
  intro ds
  induction ds with
  | nil => rintro ⟨d, hd, _⟩; simp at hd
  | cons d0 ds ih =>
      rintro ⟨d, hd, e, he⟩
      cases hf : flattenDecorator g d0 with
      | error e0 =>
          exact ⟨e0, by simp only [processFunction.flattenAll, hf, errBind]⟩
      | ok fl =>
          rcases List.mem_cons.mp hd with rfl | hmem
          · rw [hf] at he
            exact Except.noConfusion he
          · obtain ⟨e', he'⟩ := ih ⟨d, hmem, e, he⟩
            exact ⟨e', by simp only [processFunction.flattenAll, hf, okBind, he', errBind]⟩

/-- C7 counterexample: `flatten_name` raises (it does not produce an
empty/skip result) on a decorator callee that is not name-like, and a
function carrying a perfectly good `@route('/x')` decorator plus one
decorator with an unflattenable callee is skipped entirely — even though
the unflattenable decorator is not the route decorator — while the same
route decorator alone extracts fine. -/
theorem c7_nonroute_unflattenable_kills_function :
    flatten_name (.expr (.call (.name ("mk")) [])) = .error (.cannotFlatten ("expr")) ∧
    visitFunction [] "" mixedDecoratorFunc = ([], [.cannotFlatten ("expr")]) ∧
    (visitFunction [] "" goodFunc).1.length = 1 :=
  ⟨rfl, rfl, rfl⟩

/-- C7 (amended): flattening a decorator whose callee is not name-like
raises, and because `visitFunction` flattens every decorator before looking
for the route decorator, a decorated function carrying any unflattenable
decorator yields no route and one diagnostic — whether or not that
decorator is the route-matching candidate. -/
theorem c7_unflattenable_decorator_fails (g : List (String × Val)) (p : String) (f : FuncDef)
    (hbad : ∃ d ∈ f.decorators, ∃ e, flattenDecorator g d = .error e) :
    (visitFunction g p f).1 = [] ∧ (visitFunction g p f).2.length = 1 := by
  obtain ⟨e', he'⟩ := flattenAll_error g f.decorators hbad
  have hne : f.decorators ≠ [] := by
    rintro hnil
    rw [hnil] at hbad
    obtain ⟨d, hd, _⟩ := hbad
    simp at hd
  have hproc : processFunction g p f = .error e' := by
    rcases hd : f.decorators with _ | ⟨a, as⟩
    · exact absurd hd hne
    · rw [hd] at he'
      simp only [processFunction, hd, List.isEmpty_cons, Bool.false_eq_true, if_false, he',
        errBind]
  simp [visitFunction, hproc]

/-- C7 witness: the amended theorem applied to the function carrying
`@route('/x')` and an unflattenable second decorator. -/
theorem c7_unflattenable_decorator_fails_witness :
    (visitFunction [] "" mixedDecoratorFunc).1 = [] ∧
    (visitFunction [] "" mixedDecoratorFunc).2.length = 1 :=
  c7_unflattenable_decorator_fails [] "" mixedDecoratorFunc
    ⟨[.expr (.call (.name ("mk")) []), .noneChild, .noneChild],
     by simp [mixedDecoratorFunc], .cannotFlatten ("expr"), rfl⟩

end Flaschenetikett
